import Mathlib

/-!
Shallow embedding of `preprocessing/BatchCt.py` (class `BatchCt` and its
helpers) from the `radio` repository.

Modelling conventions:
* a numpy 3d-array of shape `[rows, x, y]` is a `List (List (List Int))`
  (`Buf3`); a 2d-array is `Buf2`;
* the Python dict `_patient_index_number` is an association list whose
  lookup takes the *last* binding for a key (Python dict insertion
  overwrites earlier bindings);
* the external per-patient numeric routines that are not part of this
  repository (`resize_patient_numba`, `get_filter_patient`,
  `image_XIP`, `return_black_border_array`, the decoders used by
  `_make_dicom` / `_make_blosc` / `_make_raw`) are parameters of the
  operations that call them; a fallible routine returns `Except String`,
  and a task whose exception is never retrieved by the caller leaves its
  destination slab untouched (mirroring `ThreadPoolExecutor.submit`
  whose futures are discarded);
* an in-place numpy slab assignment `res[a:b] = rows` keeps the
  destination's shape: it is modelled by `writeAt` (row-count
  preserving) and, where the interpolation destination's full shape
  matters, by the shape-checked `setSlab3` (a mis-shaped right-hand side
  raises inside the worker thread, so nothing is written);
* `_data = None` of a freshly constructed batch is modelled as the empty
  buffer; no claim inspects the buffer of an unloaded batch.
-/

set_option autoImplicit false

namespace Radio

abbrev Buf3 := List (List (List Int))

abbrev Buf2 := List (List Int)

/-- Constant `AIR_HU = -2000` from `BatchCt.py`. -/
def AIR_HU : Int := -2000

/-- Elementwise map over a 3d buffer (numpy unary ufunc / scalar op). -/
def map3 (f : Int → Int) (b : Buf3) : Buf3 :=
  b.map (fun p => p.map (fun r => r.map f))

/-- Elementwise combination of two 3d buffers (numpy binary ufunc on
equal-shaped arrays; on ragged inputs it truncates, which no claim
exercises). -/
def zip3 (f : Int → Int → Int) (a b : Buf3) : Buf3 :=
  List.zipWith (fun pa pb => List.zipWith (fun ra rb => List.zipWith f ra rb) pa pb) a b

/-- Model of `np.zeros_like(data)`. -/
def zeros_like (b : Buf3) : Buf3 := map3 (fun _ => 0) b

/-- Model of the in-place row-range assignment `res[start:start+len(rows)] = rows`:
row `j` of the result comes from `rows` inside the window and from `res`
outside it; the row count of `res` is preserved, as numpy assignment
cannot change the destination's shape. -/
def writeAt (res : Buf3) (start : Nat) (rows : Buf3) : Buf3 :=
  (List.range res.length).map (fun j =>
    if start ≤ j ∧ j < start + rows.length then rows.getD (j - start) [] else res.getD j [])

/-- One row (2d slice) has shape `x × y`. -/
def rowOkb (x y : Nat) (row : List (List Int)) : Bool :=
  row.length == x && row.all (fun r => r.length == y)

/-- A 3d buffer has shape `[n, x, y]`. -/
def shape3b (n x y : Nat) (buf : Buf3) : Bool :=
  buf.length == n && buf.all (rowOkb x y)

/-- Shape-checked slab write: numpy raises (inside the worker thread) on a
shape-mismatched slab assignment, in which case the destination is left
untouched; otherwise the slab is written in place. -/
def setSlab3 (res : Buf3) (start n x y : Nat) (rows : Buf3) : Buf3 :=
  if shape3b n x y rows then writeAt res start rows else res

/-- Running total with accumulator: `np.cumsum` starting from `acc`. -/
def cumsumFrom (acc : Nat) : List Nat → List Nat
  | [] => []
  | a :: l => (acc + a) :: cumsumFrom (acc + a) l

/-- Model of `np.cumsum` on a 1d integer array. -/
def npCumsum (l : List Nat) : List Nat := cumsumFrom 0 l

/-- Model of `np.insert(u, 0, 0)[:-1]` used to derive lower bounds. -/
def npInsertZeroDropLast (u : List Nat) : List Nat := (0 :: u).dropLast

/-- Python dict lookup on an association list built by successive
insertions: the last binding for a key wins (later insertions
overwrite), `none` models a `KeyError`. -/
def dictGet : List (String × Nat) → String → Option Nat
  | [], _ => none
  | (k, v) :: rest, s =>
    match dictGet rest s with
    | some w => some w
    | none => if k = s then some v else none

/-- Pairs every identifier with its position starting at `k`; used to
model the dict comprehension over `range(len(self.index))`. -/
def numberFrom (k : Nat) : List String → List (String × Nat)
  | [] => []
  | a :: l => (a, k) :: numberFrom (k + 1) l

/-- Model of `{self.index[i]: i for i in range(len(self.index))}`
(`_patient_index_number` as built by `load`). -/
def indexNumberDict (idx : List String) : List (String × Nat) :=
  numberFrom 0 idx

/-- Model of the row slice `data[l:u, :, :]`. -/
def sliceRows (d : Buf3) (l u : Nat) : Buf3 := (d.drop l).take (u - l)

/-- One record of `self.history` (`{'method': ..., 'params': ...}`). -/
structure HistoryRec where
  method : String
  params : List (String × Int)
deriving DecidableEq

/-- State of a `BatchCt` object: the fields assigned in
`BatchCt.__init__` and mutated by the public operations.
`_patient_index_path` (storage paths) is carried along untouched by all
modelled operations except `load`. -/
structure BatchState where
  index : List String
  data : Buf3
  lower_bounds : List Nat
  upper_bounds : List Nat
  patient_index_path : List (String × String)
  patient_index_number : List (String × Nat)
  crop_centers : Buf2
  crop_sizes : Buf3
  history : List HistoryRec
deriving DecidableEq

/-- Model of `BatchCt.__init__(index)`: empty data (`None`), empty bounds
arrays, empty dicts, empty crop caches, empty history. -/
def batchInit (idx : List String) : BatchState :=
  { index := idx
    data := []
    lower_bounds := []
    upper_bounds := []
    patient_index_path := []
    patient_index_number := []
    crop_centers := []
    crop_sizes := []
    history := [] }

/-- Model of `len(self)` (`self._lower_bounds.shape[0]`). -/
def numPatients (b : BatchState) : Nat := b.lower_bounds.length

/-- Model of `BatchCt._initialize_data_and_bounds(list_of_arrs)`:
`_data = np.concatenate(list_of_arrs, axis=0)`,
`_upper_bounds = np.cumsum([len(a) for a in list_of_arrs])`,
`_lower_bounds = np.insert(_upper_bounds, 0, 0)[:-1]`. -/
def init_data_and_bounds (b : BatchState) (arrs : List Buf3) : BatchState :=
  let ub := npCumsum (arrs.map List.length)
  { b with data := arrs.flatten
           upper_bounds := ub
           lower_bounds := npInsertZeroDropLast ub }

/-- Model of `BatchCt.load(all_patients_paths, btype)`.
`decode` abstracts the per-patient read performed by `_make_dicom`,
`_make_blosc` or `_make_raw` (external I/O and format decoders: given a
patient identifier, with its path available through the supplied
mapping, it yields that patient's 3d array); `paths` abstracts
`all_patients_paths`, whose keys must cover `self.index`. -/
def load (decode : String → Buf3) (paths : String → String) (b : BatchState) : BatchState :=
  let b1 := { b with patient_index_path := b.index.map (fun p => (p, paths p))
                     patient_index_number := indexNumberDict b.index }
  let b2 := init_data_and_bounds b1 (b.index.map decode)
  { b2 with history := b2.history ++ [⟨"load", []⟩] }

/-- Keys accepted by `BatchCt.__getitem__`: a Python `int`, a Python
`str`, or any other object (`other` stands for every key that is neither
an `int` nor a `str`). -/
inductive LookupKey where
  | pos (i : Int)
  | ident (s : String)
  | other
deriving DecidableEq

/-- Exception classes raised by `BatchCt.__getitem__`: `IndexError`
for an out-of-range position, `KeyError` from the
`_patient_index_number` dict lookup on an unknown identifier,
`ValueError("Wrong type of index for batch object")` for a key of any
other kind. -/
inductive PyExn where
  | indexError
  | keyError
  | valueError
deriving DecidableEq

/-- Model of `BatchCt.__getitem__(index)`. For an `int` key the source
checks `index < self._lower_bounds.shape[0] and index >= 0` and returns
`self._data[lower:upper, :, :]`, else raises `IndexError`; for a `str`
key it looks the key up in `_patient_index_number` (a `KeyError` escapes
on an absent identifier); every other key raises `ValueError`. -/
def getitem (b : BatchState) (k : LookupKey) : Except PyExn Buf3 :=
  match k with
  | .pos i =>
    if i < (b.lower_bounds.length : Int) ∧ 0 ≤ i then
      .ok (sliceRows b.data (b.lower_bounds.getD i.toNat 0) (b.upper_bounds.getD i.toNat 0))
    else
      .error .indexError
  | .ident s =>
    match dictGet b.patient_index_number s with
    | some n => .ok (sliceRows b.data (b.lower_bounds.getD n 0) (b.upper_bounds.getD n 0))
    | none => .error .keyError
  | .other => .error .valueError

/-- Model of iterating a batch (`BatchIterator`): the `i`-th item is the
view `data[lower[i]:upper[i], :, :]`. -/
def patientViews (b : BatchState) : List Buf3 :=
  (List.zip b.lower_bounds b.upper_bounds).map (fun p => sliceRows b.data p.1 p.2)

/-- Signature of the external routine `resize_patient_numba` as invoked
by `resize`: it reads `chunk[start_from:end_from]` and produces the
interpolated slab to be written at the destination; the keyword
arguments actually passed are exactly `chunk`, `start_from`, `end_from`,
`num_slices_new`, `num_x_new`, `num_y_new`, `res`, `start_to` — the
`order` argument of `resize` is *not* among them. A raised exception is
an `Except.error`. -/
def ResizeTask := Buf3 → Nat → Nat → Nat → Nat → Nat → Except String Buf3

/-- Destination buffer computed by `resize`: starts as
`np.zeros((len(self) * num_slices_new, num_x_new, num_y_new))`; each
per-patient task writes its interpolated slab at `start_to =
num_pat * num_slices_new`; a failed task writes nothing and its
exception is never retrieved (`executor.submit` result is dropped). -/
def resizeData (rpn : ResizeTask) (b : BatchState) (nsn nxn nyn : Nat) : Buf3 :=
  (List.range (numPatients b)).foldl
    (fun res i =>
      match rpn b.data (b.lower_bounds.getD i 0) (b.upper_bounds.getD i 0) nsn nxn nyn with
      | .ok rows => setSlab3 res (i * nsn) nsn nxn nyn rows
      | .error _ => res)
    (List.replicate (numPatients b * nsn) (List.replicate nxn (List.replicate nyn (0 : Int))))

/-- Model of `BatchCt.resize(num_slices_new, num_x_new, num_y_new,
num_threads, order)`: computes the new buffer, appends the history
record (the only place the `order` and `num_threads` arguments reach),
and replaces the bounds with `np.arange(n) * num_slices_new` and
`np.arange(1, n + 1) * num_slices_new`. -/
def resize (rpn : ResizeTask) (b : BatchState) (nsn nxn nyn numThreads order : Nat) : BatchState :=
  { b with
    data := resizeData rpn b nsn nxn nyn
    lower_bounds := (List.range (numPatients b)).map (fun i => i * nsn)
    upper_bounds := (List.range (numPatients b)).map (fun i => (i + 1) * nsn)
    history := b.history ++
      [⟨"resize", [("num_slices_new", (nsn : Int)), ("num_x_new", (nxn : Int)),
                   ("num_y_new", (nyn : Int)), ("num_threads", (numThreads : Int)),
                   ("order", (order : Int))]⟩] }

/-- Signature of the external routine `get_filter_patient` as invoked by
`get_filter`: it reads `chunk[start_from:end_from]` with the given
`erosion_radius` and produces the 0/1 mask rows to be written at
`start_to = lower_bounds[i]`. A raised exception is an `Except.error`. -/
def GetFilterTask := Buf3 → Nat → Nat → Nat → Except String Buf3

/-- Model of `BatchCt.get_filter(erosion_radius, num_threads)`: the mask
buffer starts as `np.zeros_like(self._data)`; each per-patient task
writes its mask rows at the patient's own lower bound; a failed task
writes nothing and its exception is never retrieved. The method returns
the mask and leaves the batch state untouched (it appends no history
record itself). -/
def get_filter (gfp : GetFilterTask) (b : BatchState) (erosionRadius : Nat) : Buf3 :=
  (List.range (numPatients b)).foldl
    (fun res i =>
      match gfp b.data (b.lower_bounds.getD i 0) (b.upper_bounds.getD i 0) erosionRadius with
      | .ok rows => writeAt res (b.lower_bounds.getD i 0) rows
      | .error _ => res)
    (zeros_like b.data)

/-- Model of `BatchCt.segment(erosion_radius, num_threads)`:
`lungs = self.get_filter(erosion_radius, num_threads)`;
`self._data = self._data * lungs`;
`result_filter = 1 - lungs`; `result_filter *= -2000`;
`self._data += result_filter`; then a `segmentation` history record. -/
def segment (gfp : GetFilterTask) (b : BatchState) (erosionRadius numThreads : Nat) : BatchState :=
  let lungs := get_filter gfp b erosionRadius
  let d1 := zip3 (fun x y => x * y) b.data lungs
  let rf := map3 (fun v => 1 - v) lungs
  let rf2 := map3 (fun v => v * (-2000)) rf
  { b with
    data := zip3 (fun x y => x + y) d1 rf2
    history := b.history ++
      [⟨"segmentation", [("erosion_radius", (erosionRadius : Int)),
                         ("num_threads", (numThreads : Int))]⟩] }

/-- Signature of the external routine `image_XIP` as invoked by
`make_XIP`: arguments are `image`, `start`, `stop`, `step`, `depth`,
`func`, `projection`, `verbose`; it returns that patient's projected
rows. `make_XIP` consumes results through `executor.map`, so it is
modelled as total here (an exception would propagate, which no claim
exercises). -/
def XIPTask := Buf3 → Nat → Nat → Nat → Nat → String → String → Bool → Buf3

/-- Per-patient projection results of `make_XIP`, in patient order. -/
def xipPatients (xip : XIPTask) (b : BatchState) (step depth : Nat)
    (func proj : String) (verbose : Bool) : List Buf3 :=
  (List.zip b.lower_bounds b.upper_bounds).map
    (fun p => xip b.data p.1 p.2 step depth func proj verbose)

/-- Result of `Batch.from_array(data, lower_bounds, upper_bounds,
history)`: the new batch built by `make_XIP` (its base-class constructor
receives exactly these four values). -/
structure XIPResult where
  data : Buf3
  lower_bounds : List Nat
  upper_bounds : List Nat
  history : List HistoryRec
deriving DecidableEq

/-- Model of `BatchCt.make_XIP(step, depth, func, projection,
num_threads, verbose)`: runs the per-patient projections, recomputes the
bounds from the per-patient output lengths by the same
cumsum-and-insert construction as `_initialize_data_and_bounds`, and
returns a new batch over the concatenated results. -/
def make_XIP (xip : XIPTask) (b : BatchState) (step depth : Nat)
    (func proj : String) (verbose : Bool) : XIPResult :=
  let mip := xipPatients xip b step depth func proj verbose
  let ub := npCumsum (mip.map List.length)
  { data := mip.flatten
    lower_bounds := npInsertZeroDropLast ub
    upper_bounds := ub
    history := b.history }

/-- Signature of the external routine `return_black_border_array`
(`rbba`) as invoked by `_crop_params_patients`: per patient view it
returns a 2d array of box coordinates (rows × coordinate columns). -/
def CropTask := Buf3 → Buf2

/-- Model of `BatchCt._crop_params_patients(num_threads)`:
`crop_array = np.array([rbba(pat) for pat in self])`;
`self._crop_centers = crop_array[:, :, 2]`;
`self._crop_sizes = crop_array[:, :, :2]`. -/
def crop_params_patients (rb : CropTask) (b : BatchState) : BatchState :=
  let crop_array := (patientViews b).map rb
  { b with
    crop_centers := crop_array.map (fun m => m.map (fun row => row.getD 2 0))
    crop_sizes := crop_array.map (fun m => m.map (fun row => row.take 2)) }

/-- Truth value of a numpy array as used by `if not arr:` — on the
flattened element list: empty array is falsy, a one-element array has
the truth value of its element, and any larger array raises
`ValueError` (ambiguous truth value). -/
def npTruthy (elems : List Int) : Except String Bool :=
  match elems with
  | [] => .ok false
  | [e] => .ok (e != 0)
  | _ :: _ :: _ => .error "ValueError: ambiguous truth value"

/-- Model of the property `BatchCt.crop_centers`:
`if not self._crop_centers: self._crop_params_patients()` then
`return self._crop_centers`. Returns the (possibly updated) state with
the value, or the exception escaping from the truthiness test. -/
def crop_centers_access (rb : CropTask) (b : BatchState) :
    Except String (BatchState × Buf2) :=
  match npTruthy b.crop_centers.flatten with
  | .error e => .error e
  | .ok true => .ok (b, b.crop_centers)
  | .ok false =>
    let b' := crop_params_patients rb b
    .ok (b', b'.crop_centers)

/-- Model of the property `BatchCt.crop_sizes`:
`if not self._crop_sizes: self._crop_params_patients()` then
`return self._crop_sizes`. -/
def crop_sizes_access (rb : CropTask) (b : BatchState) :
    Except String (BatchState × Buf3) :=
  match npTruthy b.crop_sizes.flatten.flatten with
  | .error e => .error e
  | .ok true => .ok (b, b.crop_sizes)
  | .ok false =>
    let b' := crop_params_patients rb b
    .ok (b', b'.crop_sizes)

/-- Bounds-partition property of a constructed store, following §8 of
the design: as many lower as upper bounds as patients, each range's
width is the corresponding input length, consecutive ranges are gapless,
the first lower bound is `0` and the last upper bound is the buffer's
row count. -/
def boundsPartitionb (lb ub : List Nat) (rows : Nat) (widths : List Nat) : Bool :=
  lb.length == widths.length &&
  ub.length == widths.length &&
  (List.range widths.length).all (fun i => ub.getD i 0 - lb.getD i 0 == widths.getD i 0) &&
  (List.range (widths.length - 1)).all (fun i => ub.getD i 0 == lb.getD (i + 1) 0) &&
  lb.getD 0 1 == 0 &&
  ub.getLast? == some rows


lemma cumsumFrom_length (acc : Nat) (L : List Nat) :
    (cumsumFrom acc L).length = L.length := by
  induction L generalizing acc with
  | nil => rfl
  | cons a l ih => simp [cumsumFrom, ih]

lemma cumsumFrom_getD (L : List Nat) :
    ∀ (acc i : Nat), i < L.length →
      (cumsumFrom acc L).getD i 0 = acc + (L.take (i + 1)).sum := by
  induction L with
  | nil => intro acc i h; simp at h
  | cons a l ih =>
    intro acc i h
    cases i with
    | zero => simp [cumsumFrom]
    | succ j =>
      have hj : j < l.length := by simpa using h
      simp only [cumsumFrom, List.getD_cons_succ]
      rw [ih (acc + a) j hj]
      simp [List.take_succ_cons]
      omega

lemma cumsumFrom_getLast? :
    ∀ (L : List Nat) (acc : Nat), L ≠ [] →
      (cumsumFrom acc L).getLast? = some (acc + L.sum) := by
  intro L
  induction L with
  | nil => intro acc h; exact absurd rfl h
  | cons a l ih =>
    intro acc _
    cases l with
    | nil => simp [cumsumFrom]
    | cons b m =>
      have h2 := ih (acc + a) (by simp)
      show ((acc + a) :: cumsumFrom (acc + a) (b :: m)).getLast? = _
      rw [show cumsumFrom (acc + a) (b :: m) =
            (acc + a + b) :: cumsumFrom (acc + a + b) m from rfl,
          List.getLast?_cons_cons,
          ← show cumsumFrom (acc + a) (b :: m) =
            (acc + a + b) :: cumsumFrom (acc + a + b) m from rfl,
          h2]
      simp
      omega

lemma getD_dropLast (l : List Nat) (i : Nat) (d : Nat) (h : i + 1 < l.length) :
    l.dropLast.getD i d = l.getD i d := by
  have h1 : i < l.dropLast.length := by
    rw [List.length_dropLast]; omega
  have h2 : i < l.length := by omega
  rw [List.getD_eq_getElem _ _ h1, List.getD_eq_getElem _ _ h2, List.getElem_dropLast]

lemma take_sum_succ (L : List Nat) (i : Nat) (h : i < L.length) :
    (L.take (i + 1)).sum = (L.take i).sum + L.getD i 0 := by
  rw [List.take_succ, List.sum_append, List.getElem?_eq_getElem h,
    List.getD_eq_getElem _ _ h]
  simp

lemma boundsPartition_construction (L : List Nat) (hL : 0 < L.length) :
    boundsPartitionb (npInsertZeroDropLast (npCumsum L)) (npCumsum L) L.sum L = true := by
  have hne : L ≠ [] := by
    cases L with
    | nil => simp at hL
    | cons a l => simp
  have hul : (npCumsum L).length = L.length := cumsumFrom_length 0 L
  have hlbl : (npInsertZeroDropLast (npCumsum L)).length = L.length := by
    simp [npInsertZeroDropLast, List.length_dropLast, hul]
  have hlb : ∀ i, i < L.length →
      (npInsertZeroDropLast (npCumsum L)).getD i 0 = (0 :: npCumsum L).getD i 0 := by
    intro i hi
    exact getD_dropLast (0 :: npCumsum L) i 0 (by simp [hul]; omega)
  have hu : ∀ i, i < L.length → (npCumsum L).getD i 0 = (L.take (i + 1)).sum := by
    intro i hi
    simpa using cumsumFrom_getD L 0 i hi
  simp only [boundsPartitionb, Bool.and_eq_true, beq_iff_eq, List.all_eq_true,
    List.mem_range, Option.some.injEq]
  refine ⟨⟨⟨⟨⟨hlbl, hul⟩, ?_⟩, ?_⟩, ?_⟩, ?_⟩
  · -- widths: upper minus lower is the input length
    intro i hi
    rw [hlb i hi, hu i hi]
    cases i with
    | zero =>
      simp only [List.getD_cons_zero]
      rw [take_sum_succ L 0 hi]
      simp
    | succ j =>
      simp only [List.getD_cons_succ]
      rw [hu j (by omega), take_sum_succ L (j + 1) hi]
      omega
  · -- gapless: upper of one patient is lower of the next
    intro i hi
    rw [hlb (i + 1) (by omega)]
    simp only [List.getD_cons_succ]
  · -- first lower bound is zero
    have h0 : 0 + 1 < (0 :: npCumsum L).length := by simp [hul]; omega
    rw [npInsertZeroDropLast, getD_dropLast _ 0 1 h0]
    simp
  · -- last upper bound is the total row count
    simpa using cumsumFrom_getLast? L 0 hne

lemma load_lower_bounds (decode : String → Buf3) (paths : String → String) (b : BatchState) :
    (load decode paths b).lower_bounds =
      npInsertZeroDropLast (npCumsum ((b.index.map decode).map List.length)) := rfl

lemma load_upper_bounds (decode : String → Buf3) (paths : String → String) (b : BatchState) :
    (load decode paths b).upper_bounds =
      npCumsum ((b.index.map decode).map List.length) := rfl

lemma load_data (decode : String → Buf3) (paths : String → String) (b : BatchState) :
    (load decode paths b).data = (b.index.map decode).flatten := rfl

lemma load_patient_index_number (decode : String → Buf3) (paths : String → String)
    (b : BatchState) :
    (load decode paths b).patient_index_number = indexNumberDict b.index := rfl

lemma load_lower_length (decode : String → Buf3) (paths : String → String) (b : BatchState) :
    (load decode paths b).lower_bounds.length = b.index.length := by
  rw [load_lower_bounds]
  simp [npInsertZeroDropLast, npCumsum, List.length_dropLast, cumsumFrom_length]

/-- C1: for a batch built by `load` from per-patient decoded arrays, and
for the new batch built by `make_XIP` from per-patient projection
results, the bounds form a partition of the buffer: first lower bound
`0`, `upper[i] = lower[i+1]` for consecutive pairs, last upper bound
equal to the buffer's row count, the width of range `i` equal to the
`i`-th input's row count, and as many bounds entries as identifiers. -/
theorem load_and_makeXIP_bounds_partition
    (decode : String → Buf3) (paths : String → String) (idx : List String)
    (xip : XIPTask) (step depth : Nat) (func proj : String) (verbose : Bool)
    (h : 0 < idx.length) :
    boundsPartitionb (load decode paths (batchInit idx)).lower_bounds
      (load decode paths (batchInit idx)).upper_bounds
      (load decode paths (batchInit idx)).data.length
      ((idx.map decode).map List.length) = true
    ∧ (load decode paths (batchInit idx)).lower_bounds.length = idx.length
    ∧ boundsPartitionb
        (make_XIP xip (load decode paths (batchInit idx)) step depth func proj verbose).lower_bounds
        (make_XIP xip (load decode paths (batchInit idx)) step depth func proj verbose).upper_bounds
        (make_XIP xip (load decode paths (batchInit idx)) step depth func proj verbose).data.length
        ((xipPatients xip (load decode paths (batchInit idx)) step depth func proj verbose).map
          List.length) = true
    ∧ (make_XIP xip (load decode paths (batchInit idx)) step depth func proj
        verbose).lower_bounds.length = idx.length := by
  have hmiplen :
      (xipPatients xip (load decode paths (batchInit idx)) step depth func proj verbose).length
        = idx.length := by
    simp [xipPatients, List.length_zipWith, load_lower_length, load_upper_bounds,
      npCumsum, cumsumFrom_length, batchInit]
  refine ⟨?_, ?_, ?_, ?_⟩
  · have := boundsPartition_construction ((idx.map decode).map List.length) (by simpa using h)
    rw [load_lower_bounds, load_upper_bounds, load_data, List.length_flatten, List.map_map]
    simpa [Function.comp] using this
  · exact load_lower_length decode paths (batchInit idx)
  · have := boundsPartition_construction
      ((xipPatients xip (load decode paths (batchInit idx)) step depth func proj verbose).map
        List.length) (by simp [hmiplen]; omega)
    show boundsPartitionb (npInsertZeroDropLast (npCumsum _)) (npCumsum _) _ _ = true
    rw [show (make_XIP xip (load decode paths (batchInit idx)) step depth func proj
        verbose).data =
      (xipPatients xip (load decode paths (batchInit idx)) step depth func proj
        verbose).flatten from rfl]
    rw [List.length_flatten]
    exact this
  · show (npInsertZeroDropLast (npCumsum _)).length = idx.length
    simp [npInsertZeroDropLast, npCumsum, List.length_dropLast, cumsumFrom_length, hmiplen]

lemma dictGet_numberFrom_notMem :
    ∀ (l : List String) (k : Nat) (s : String), s ∉ l → dictGet (numberFrom k l) s = none := by
  intro l
  induction l with
  | nil => intro k s _; rfl
  | cons a m ih =>
    intro k s hs
    have hsa : a ≠ s := fun hh => hs (by simp [hh])
    have hsm : s ∉ m := fun hh => hs (by simp [hh])
    simp [numberFrom, dictGet, ih (k + 1) s hsm, hsa]

lemma dictGet_numberFrom :
    ∀ (l : List String) (k i : Nat) (h : i < l.length), l.Nodup →
      dictGet (numberFrom k l) (l.get ⟨i, h⟩) = some (k + i) := by
  intro l
  induction l with
  | nil => intro k i h; simp at h
  | cons a m ih =>
    intro k i h hnd
    have hal : a ∉ m := (List.nodup_cons.mp hnd).1
    have hm : m.Nodup := (List.nodup_cons.mp hnd).2
    cases i with
    | zero =>
      show dictGet ((a, k) :: numberFrom (k + 1) m) a = some k
      simp [dictGet, dictGet_numberFrom_notMem m (k + 1) a hal]
    | succ j =>
      have hj : j < m.length := by simpa using h
      have hrec := ih (k + 1) j hj hm
      show dictGet ((a, k) :: numberFrom (k + 1) m) (m.get ⟨j, hj⟩) = some (k + (j + 1))
      simp only [dictGet, hrec]
      congr 1
      omega

/-- C4: on a loaded batch, lookup by position and lookup by the
identifier at that position return the same patient slab — the same row
range of the buffer. -/
theorem getitem_pos_ident_agree
    (decode : String → Buf3) (paths : String → String) (idx : List String)
    (i : Nat) (h : i < idx.length) (hnd : idx.Nodup) :
    getitem (load decode paths (batchInit idx)) (.pos (i : Int)) =
      getitem (load decode paths (batchInit idx)) (.ident (idx.get ⟨i, h⟩)) := by
  have hlen := load_lower_length decode paths (batchInit idx)
  have hdict : dictGet (load decode paths (batchInit idx)).patient_index_number
      (idx.get ⟨i, h⟩) = some i := by
    rw [load_patient_index_number]
    simpa using dictGet_numberFrom idx 0 i h hnd
  have hcond : (i : Int) < ((load decode paths (batchInit idx)).lower_bounds.length : Int)
      ∧ (0 : Int) ≤ (i : Int) := by
    rw [hlen]
    constructor
    · exact_mod_cast h
    · exact Int.ofNat_nonneg i
  simp only [getitem, hdict, if_pos hcond, Int.toNat_natCast]

/-- Concrete inputs used by the witnesses: the three-patient scenario of
the design document (row counts 5, 3, 4). -/
def decW : String → Buf3 := fun s =>
  if s = "a" then List.replicate 5 [[0]]
  else if s = "b" then List.replicate 3 [[0]]
  else List.replicate 4 [[0]]

/-- Path mapping used by the witnesses. -/
def pathsW : String → String := fun s => s

/-- Identifier list used by the witnesses. -/
def idxW : List String := ["a", "b", "c"]

/-- Projection routine used by the C1 witness: reduces each patient view
to its own rows (a concrete stand-in for `image_XIP`). -/
def xipW : XIPTask := fun img start stop _ _ _ _ _ => sliceRows img start stop

theorem load_and_makeXIP_bounds_partition_witness :
    boundsPartitionb (load decW pathsW (batchInit idxW)).lower_bounds
      (load decW pathsW (batchInit idxW)).upper_bounds
      (load decW pathsW (batchInit idxW)).data.length
      ((idxW.map decW).map List.length) = true
    ∧ (load decW pathsW (batchInit idxW)).lower_bounds.length = idxW.length
    ∧ boundsPartitionb
        (make_XIP xipW (load decW pathsW (batchInit idxW)) 2 10 "max" "axial" false).lower_bounds
        (make_XIP xipW (load decW pathsW (batchInit idxW)) 2 10 "max" "axial" false).upper_bounds
        (make_XIP xipW (load decW pathsW (batchInit idxW)) 2 10 "max" "axial" false).data.length
        ((xipPatients xipW (load decW pathsW (batchInit idxW)) 2 10 "max" "axial" false).map
          List.length) = true
    ∧ (make_XIP xipW (load decW pathsW (batchInit idxW)) 2 10 "max" "axial"
        false).lower_bounds.length = idxW.length :=
  load_and_makeXIP_bounds_partition decW pathsW idxW xipW 2 10 "max" "axial" false (by decide)

theorem getitem_pos_ident_agree_witness :
    getitem (load decW pathsW (batchInit idxW)) (.pos ((1 : Nat) : Int)) =
      getitem (load decW pathsW (batchInit idxW)) (.ident (idxW.get ⟨1, by decide⟩)) :=
  getitem_pos_ident_agree decW pathsW idxW 1 (by decide) (by decide)

/-- C5: patient lookup on a loaded batch raises the out-of-range error
(`IndexError`) for every position that is negative or at least the
patient count, the unknown-identifier error (`KeyError`) for every
identifier absent from the batch, and the wrong-key-kind error
(raised as `ValueError` in the source) for every key that is neither a
position nor an identifier. -/
theorem getitem_error_taxonomy
    (decode : String → Buf3) (paths : String → String) (idx : List String) :
    (∀ i : Int, i < 0 ∨ (idx.length : Int) ≤ i →
      getitem (load decode paths (batchInit idx)) (.pos i) = .error .indexError)
    ∧ (∀ s : String, s ∉ idx →
      getitem (load decode paths (batchInit idx)) (.ident s) = .error .keyError)
    ∧ getitem (load decode paths (batchInit idx)) .other = .error .valueError := by
  have hlen := load_lower_length decode paths (batchInit idx)
  refine ⟨?_, ?_, rfl⟩
  · intro i hi
    have hcond : ¬((i : Int) < ((load decode paths (batchInit idx)).lower_bounds.length : Int)
        ∧ (0 : Int) ≤ i) := by
      have hidx : (batchInit idx).index = idx := rfl
      rw [hlen, hidx]
      omega
    simp only [getitem, if_neg hcond]
  · intro s hs
    have hdict : dictGet (load decode paths (batchInit idx)).patient_index_number s = none := by
      rw [load_patient_index_number]
      exact dictGet_numberFrom_notMem idx 0 s hs
    simp only [getitem, hdict]

theorem getitem_error_taxonomy_witness :
    getitem (load decW pathsW (batchInit idxW)) (.pos (-1)) = .error .indexError
    ∧ getitem (load decW pathsW (batchInit idxW)) (.ident "zz") = .error .keyError :=
  ⟨(getitem_error_taxonomy decW pathsW idxW).1 (-1) (by decide),
   (getitem_error_taxonomy decW pathsW idxW).2.1 "zz" (by decide)⟩

/-- C10: on a batch that has been constructed but never loaded,
`_patient_index_number` is still the empty dict and `_lower_bounds` is
still empty, so every identifier lookup raises `KeyError` — including
identifiers listed in the batch's own index — and every positional
lookup raises `IndexError`. -/
theorem fresh_batch_lookup_always_fails (idx : List String) :
    (∀ s : String, getitem (batchInit idx) (.ident s) = .error .keyError)
    ∧ (∀ i : Int, getitem (batchInit idx) (.pos i) = .error .indexError) := by
  constructor
  · intro s
    rfl
  · intro i
    have hcond : ¬(i < (((batchInit idx).lower_bounds.length : Nat) : Int) ∧ (0 : Int) ≤ i) := by
      show ¬(i < ((List.length [] : Nat) : Int) ∧ (0 : Int) ≤ i)
      simp only [List.length_nil]
      omega
    simp only [getitem, if_neg hcond]

lemma foldl_preserves {α β : Type} (P : α → Prop) (f : α → β → α) :
    ∀ (l : List β) (init : α), P init → (∀ a x, P a → P (f a x)) → P (l.foldl f init) := by
  intro l
  induction l with
  | nil => intro init h0 _; exact h0
  | cons x xs ih =>
    intro init h0 hstep
    exact ih (f init x) (hstep init x h0) hstep

lemma writeAt_length (res : Buf3) (start : Nat) (rows : Buf3) :
    (writeAt res start rows).length = res.length := by
  simp [writeAt]

lemma writeAt_all_rowOkb (x y : Nat) (res : Buf3) (start : Nat) (rows : Buf3)
    (h1 : res.all (rowOkb x y) = true) (h2 : rows.all (rowOkb x y) = true) :
    (writeAt res start rows).all (rowOkb x y) = true := by
  rw [List.all_eq_true] at h1 h2 ⊢
  intro z hz
  rw [writeAt, List.mem_map] at hz
  obtain ⟨j, hj, rfl⟩ := hz
  rw [List.mem_range] at hj
  by_cases hc : start ≤ j ∧ j < start + rows.length
  · rw [if_pos hc]
    have hjr : j - start < rows.length := by omega
    rw [List.getD_eq_getElem rows [] hjr]
    exact h2 _ (List.getElem_mem hjr)
  · rw [if_neg hc]
    rw [List.getD_eq_getElem res [] hj]
    exact h1 _ (List.getElem_mem hj)

lemma shape3b_setSlab3 (n x y m start : Nat) (res rows : Buf3)
    (h : shape3b n x y res = true) :
    shape3b n x y (setSlab3 res start m x y rows) = true := by
  rw [setSlab3]
  by_cases hc : shape3b m x y rows = true
  · rw [if_pos hc]
    rw [shape3b, Bool.and_eq_true, beq_iff_eq] at h hc ⊢
    exact ⟨by rw [writeAt_length]; exact h.1, writeAt_all_rowOkb x y res start rows h.2 hc.2⟩
  · rw [if_neg hc]
    exact h

lemma shape3b_replicate (n x y : Nat) :
    shape3b n x y (List.replicate n (List.replicate x (List.replicate y (0 : Int)))) = true := by
  rw [shape3b, Bool.and_eq_true, beq_iff_eq, List.all_eq_true]
  refine ⟨List.length_replicate n _, ?_⟩
  intro z hz
  rw [List.mem_replicate] at hz
  rw [hz.2, rowOkb, Bool.and_eq_true, beq_iff_eq, List.all_eq_true]
  refine ⟨List.length_replicate x _, ?_⟩
  intro r hr
  rw [List.mem_replicate] at hr
  rw [hr.2]
  simp

/-- C2: after `resize(num_slices_new, num_x_new, num_y_new)` on a batch
of `N` patients the bounds are uniform — `lower = arange(N) * Zn` and
`upper = arange(1, N+1) * Zn`, i.e. `lower[i] = i*Zn` and
`upper[i] = (i+1)*Zn` — and the buffer has shape `[N*Zn, Xn, Yn]`,
whatever the per-patient interpolation tasks do. -/
theorem resize_uniform_bounds_and_shape (rpn : ResizeTask) (b : BatchState)
    (nsn nxn nyn t o : Nat) :
    (resize rpn b nsn nxn nyn t o).lower_bounds =
      (List.range (numPatients b)).map (fun i => i * nsn)
    ∧ (resize rpn b nsn nxn nyn t o).upper_bounds =
      (List.range (numPatients b)).map (fun i => (i + 1) * nsn)
    ∧ shape3b (numPatients b * nsn) nxn nyn (resize rpn b nsn nxn nyn t o).data = true := by
  refine ⟨rfl, rfl, ?_⟩
  show shape3b (numPatients b * nsn) nxn nyn (resizeData rpn b nsn nxn nyn) = true
  rw [resizeData]
  apply foldl_preserves (fun res => shape3b (numPatients b * nsn) nxn nyn res = true)
  · exact shape3b_replicate _ _ _
  · intro res i hres
    cases hr : rpn b.data (b.lower_bounds.getD i 0) (b.upper_bounds.getD i 0) nsn nxn nyn with
    | ok rows =>
      simp only [hr]
      exact shape3b_setSlab3 _ _ _ _ _ _ _ hres
    | error e =>
      simp only [hr]
      exact hres

/-- C6 is refuted by this theorem: the buffer and bounds produced by
`resize` are identical for any two interpolation orders, because the
source builds `args_dict` without an `'order'` key, so the order
argument never reaches `resize_patient_numba`; it is only copied into
the history record. -/
theorem resize_result_independent_of_order (rpn : ResizeTask) (b : BatchState)
    (nsn nxn nyn t o₁ o₂ : Nat) :
    (resize rpn b nsn nxn nyn t o₁).data = (resize rpn b nsn nxn nyn t o₂).data
    ∧ (resize rpn b nsn nxn nyn t o₁).lower_bounds = (resize rpn b nsn nxn nyn t o₂).lower_bounds
    ∧ (resize rpn b nsn nxn nyn t o₁).upper_bounds = (resize rpn b nsn nxn nyn t o₂).upper_bounds :=
  ⟨rfl, rfl, rfl⟩

lemma foldl_const {α β : Type} : ∀ (l : List β) (init : α),
    List.foldl (fun res (_ : β) => res) init l = init := by
  intro l
  induction l with
  | nil => intro init; rfl
  | cons x xs ih => intro init; exact ih init

/-- C7 is refuted by this theorem: `resize` and `get_filter` submit
their per-patient tasks and never retrieve the futures' results, so
when every task fails both operations still complete normally — the
resize buffer is left all zeros and the returned mask is
`np.zeros_like(data)` — and no error of any kind is surfaced. -/
theorem resize_getFilter_swallow_task_failures (b : BatchState)
    (nsn nxn nyn t o r : Nat) (e : String) :
    (resize (fun _ _ _ _ _ _ => .error e) b nsn nxn nyn t o).data =
      List.replicate (numPatients b * nsn) (List.replicate nxn (List.replicate nyn (0 : Int)))
    ∧ get_filter (fun _ _ _ _ => .error e) b r = zeros_like b.data := by
  constructor
  · show resizeData (fun _ _ _ _ _ _ => .error e) b nsn nxn nyn = _
    rw [resizeData]
    exact foldl_const _ _
  · rw [get_filter]
    exact foldl_const _ _

lemma zipWith_zipWith_map {α β γ δ ε : Type} (f : γ → δ → ε) (g : α → β → γ) (h : β → δ) :
    ∀ (a : List α) (b : List β),
      List.zipWith f (List.zipWith g a b) (b.map h) =
        List.zipWith (fun x y => f (g x y) (h y)) a b := by
  intro a
  induction a with
  | nil => intro b; rfl
  | cons x xs ih =>
    intro b
    cases b with
    | nil => rfl
    | cons y ys => simp [ih ys]

lemma map3_map3 (f g : Int → Int) (x : Buf3) :
    map3 f (map3 g x) = map3 (fun v => f (g v)) x := by
  simp [map3, List.map_map, Function.comp]

lemma seg_law_1 (a b : List Int) :
    List.zipWith (fun x y => x + y) (List.zipWith (fun x y => x * y) a b)
      (b.map (fun v => (1 - v) * (-2000))) =
    List.zipWith (fun x y => x * y + (1 - y) * (-2000)) a b :=
  zipWith_zipWith_map _ _ _ a b

lemma seg_law_2 (a b : Buf2) :
    List.zipWith (fun ra rb => List.zipWith (fun x y => x + y) ra rb)
      (List.zipWith (fun ra rb => List.zipWith (fun x y => x * y) ra rb) a b)
      (b.map (fun r => r.map (fun v => (1 - v) * (-2000)))) =
    List.zipWith (fun ra rb => List.zipWith (fun x y => x * y + (1 - y) * (-2000)) ra rb) a b := by
  rw [zipWith_zipWith_map (fun ra rb => List.zipWith (fun x y => x + y) ra rb)
      (fun ra rb => List.zipWith (fun x y => x * y) ra rb)
      (fun r => r.map (fun v => (1 - v) * (-2000))) a b]
  have hfun : (fun (x y : List Int) =>
      List.zipWith (fun u v => u + v) (List.zipWith (fun u v => u * v) x y)
        (y.map (fun v => (1 - v) * (-2000)))) =
      fun x y => List.zipWith (fun u v => u * v + (1 - v) * (-2000)) x y := by
    funext x y
    exact seg_law_1 x y
  rw [hfun]

lemma seg_law_3 (a : Buf3) : ∀ (b : Buf3),
    zip3 (fun x y => x + y) (zip3 (fun x y => x * y) a b)
      (map3 (fun v => (1 - v) * (-2000)) b) =
    zip3 (fun x y => x * y + (1 - y) * (-2000)) a b := by
  induction a with
  | nil => intro b; rfl
  | cons x xs ih =>
    intro b
    cases b with
    | nil => rfl
    | cons y ys =>
      have htail := ih ys
      simp only [zip3, map3, List.map_cons, List.zipWith_cons_cons] at htail ⊢
      rw [htail]
      congr 1
      exact seg_law_2 x y

/-- C3: the buffer after `segment(erosion_radius)` equals, pointwise,
`input * mask + (1 - mask) * (-2000)` where `mask` is the 0/1 buffer
returned by `get_filter` with the same erosion radius on the same input
buffer (`AIR_HU = -2000`). -/
theorem segment_elementwise_law (gfp : GetFilterTask) (b : BatchState) (r t : Nat) :
    (segment gfp b r t).data =
      zip3 (fun x m => x * m + (1 - m) * AIR_HU) b.data (get_filter gfp b r) := by
  show zip3 (fun x y => x + y)
      (zip3 (fun x y => x * y) b.data (get_filter gfp b r))
      (map3 (fun v => v * (-2000)) (map3 (fun v => 1 - v) (get_filter gfp b r))) = _
  rw [map3_map3]
  exact seg_law_3 b.data (get_filter gfp b r)

/-- C9: `segment` (whose mask computation `get_filter` builds its result
in a separate buffer and leaves the batch untouched) replaces only the
data buffer: the lower bounds, upper bounds, identifier sequence and
identifier-to-position dict are unchanged. -/
theorem segment_preserves_bounds_and_index (gfp : GetFilterTask) (b : BatchState) (r t : Nat) :
    (segment gfp b r t).lower_bounds = b.lower_bounds
    ∧ (segment gfp b r t).upper_bounds = b.upper_bounds
    ∧ (segment gfp b r t).index = b.index
    ∧ (segment gfp b r t).patient_index_number = b.patient_index_number :=
  ⟨rfl, rfl, rfl, rfl⟩

/-- Crop routine used by the C8 scenario: each patient's bounding-box
array is a single row of three coordinates (a concrete stand-in for
`return_black_border_array`). -/
def rbC : CropTask := fun _ => [[1, 1, 1]]

/-- Two-patient loaded batch used by the C8 scenario (one row per
patient). -/
def bC0 : BatchState := load (fun _ => [[[0]]]) (fun s => s) (batchInit ["a", "b"])

/-- The C8 batch after `_crop_params_patients` has filled the crop
caches. -/
def bC1 : BatchState := crop_params_patients rbC bC0

/-- C8 is refuted by this theorem: the `crop_centers` / `crop_sizes`
properties guard their caches with numpy truthiness
(`if not self._crop_centers:`). On a two-patient batch the first access
computes and returns the cached value, but the second access evaluates
`not` on a cached array of two elements, which raises
`ValueError: ambiguous truth value` instead of returning the cache. -/
theorem crop_cache_second_access_raises :
    crop_centers_access rbC bC0 = .ok (bC1, [[1], [1]])
    ∧ crop_centers_access rbC bC1 = .error "ValueError: ambiguous truth value"
    ∧ crop_sizes_access rbC bC1 = .error "ValueError: ambiguous truth value" := by
  refine ⟨?_, ?_, ?_⟩ <;> rfl

end Radio
